import Mathlib

/-!
Verification of the tmf882x driver (Python) against its specification.

The development shallowly embeds the two driver revisions found in the
repository:

* `InitPy`       — src/src/tmf882x/__init__.py
* `MeasurementPy`— src/src/tmf882x/measurement.py

Python lists of bytes are modelled as `List Nat`; fallible code (subscript
errors, enum lookup failures, unknown spatial maps) returns `Option`.
-/

/-- Python slice `data[a:b]` for non-negative bounds: drop `a`, keep at most
`b - a` elements.  A Python slice never raises. -/
def pySlice (data : List Nat) (a b : Nat) : List Nat :=
  (data.drop a).take (b - a)

/-- Python `int.from_bytes(bs, "little")` on a list of byte values. -/
def fromLE : List Nat → Nat
  | [] => 0
  | b :: bs => b + 256 * fromLE bs

/-- Python `int.from_bytes(bs, "little", signed=True)`: two's complement of
width `8 * bs.length`; the empty byte string decodes to `0`. -/
def fromLEsigned (bs : List Nat) : Int :=
  if 2 * fromLE bs < 2 ^ (8 * bs.length) then (fromLE bs : Int)
  else (fromLE bs : Int) - 2 ^ (8 * bs.length)

/-- Embedding of a Python list comprehension `[f(i) for i in range(n)]`
(starting at index `i`, producing `n` elements) whose body may raise an
`IndexError`: the whole comprehension fails as soon as one body fails. -/
def traverseIdx (f : Nat → Option α) : Nat → Nat → Option (List α)
  | _, 0 => some []
  | i, n + 1 =>
    match f i with
    | none => none
    | some x =>
      match traverseIdx f (i + 1) n with
      | none => none
      | some xs => some (x :: xs)

/-- `[f(i) for i in range(n)]` with a fallible body. -/
def traverseRange (f : Nat → Option α) (n : Nat) : Option (List α) :=
  traverseIdx f 0 n

/-- The zone-selection step shared (up to the window offset) by both
revisions of `TMF882xMeasurement.grid`: for the 4×4 spatial map take
`results[offset:offset+8] + results[offset+9:offset+17]`, otherwise take
`results[offset:offset+x*y]` (measurement.py uses `offset = 0`). -/
def applicable_results (results : List α) (offset x y : Nat) : List α :=
  if x = 4 ∧ y = 4 then
    ((results.drop offset).take 8) ++ ((results.drop (offset + 9)).take 8)
  else
    (results.drop offset).take (x * y)

namespace InitPy

/-- `TMF882xMode` of src/src/tmf882x/__init__.py: values OFF=0x00,
STANDBY=0x02, ENABLED=0x41. -/
inductive TMF882xMode where
  | off
  | standby
  | enabled
deriving DecidableEq

/-- `TMF882xMode.from_register`: mask bits 4 and 5 (`value & 0xCF`), then the
Python `Enum` lookup, which raises `ValueError` (here `none`) for any value
that is not one of the three members. -/
def from_register (value : Nat) : Option TMF882xMode :=
  if value &&& 0xCF = 0x00 then some TMF882xMode.off
  else if value &&& 0xCF = 0x02 then some TMF882xMode.standby
  else if value &&& 0xCF = 0x41 then some TMF882xMode.enabled
  else none

/-- `TMF882xResult` of __init__.py. -/
structure TMF882xResult where
  confidence : Nat
  distance : Nat
deriving DecidableEq, Inhabited

/-- `TMF882xMeasurement` of __init__.py. -/
structure TMF882xMeasurement where
  result_number : Nat
  temperature : Int
  n_valid_results : Nat
  ambient_light : Nat
  photon_count : Nat
  reference_count : Nat
  system_tick : Nat
  results : List TMF882xResult
  spad_map : Nat
  raw : List Nat
deriving DecidableEq, Inhabited

/-- `TMF882xMeasurement.from_bytes` of __init__.py.  Plain subscripts
(`data[4]`, `data[6]`, `data[24 + 3 * i]`) raise `IndexError` on a short
buffer; slices and `int.from_bytes` never do.  `bytes(data)` (the `raw`
field) raises `ValueError` when an element is not a byte. -/
def from_bytes (data : List Nat) (spad_map : Nat) : Option TMF882xMeasurement :=
  match data.get? 4 with
  | none => none
  | some result_number =>
    match data.get? 6 with
    | none => none
    | some n_valid_results =>
      match traverseRange (fun i =>
          (data.get? (24 + 3 * i)).map (fun c =>
            { confidence := c
              distance := fromLE (pySlice data (25 + 3 * i) (27 + 3 * i)) })) 36 with
      | none => none
      | some results =>
        if data.all (fun b => b < 256) then
          some
            { result_number := result_number
              temperature := fromLEsigned (pySlice data 5 6)
              n_valid_results := n_valid_results
              ambient_light := fromLE (pySlice data 8 12)
              photon_count := fromLE (pySlice data 12 16)
              reference_count := fromLE (pySlice data 16 20)
              system_tick := fromLE (pySlice data 20 24)
              results := results
              spad_map := spad_map
              raw := data }
        else none

/-- `TMF882xMeasurement.grid` of __init__.py.  The dimension table
`SPAD_MAP_DIMENSIONS` lives in tmf882x/constants.py, which is not part of
the sources; it is abstracted as the `dims` argument, with `none` for a
`KeyError` (the code then raises `NotImplementedError`).  Each cell reads
`applicable_results[row + x * column].distance`, replacing `0` by `None`;
the nested comprehension runs `column` over `range(y)` outside and `row`
over `range(x)` inside. -/
def grid (m : TMF882xMeasurement) (secondary : Bool)
    (dims : Nat → Option (Nat × Nat)) : Option (List (List (Option Nat))) :=
  match dims m.spad_map with
  | none => none
  | some (x, y) =>
    let offset := if secondary then 18 else 0
    let ar := applicable_results m.results offset x y
    traverseRange (fun column =>
      traverseRange (fun row =>
        (ar.get? (row + x * column)).map (fun r =>
          if 0 < r.distance then some r.distance else none)) x) y

/-- Fuel-indexed unfolding of the polling loop of `TMF882x._send_command`:
`while (status := self._read_status()) >= 0x10: sleep(0.001)`.  The device
is modelled as the sequence `statuses` of status-register reads; the result
is the first status below 0x10 among the first `fuel` reads, and `none`
when the loop is still running after `fuel` reads. -/
def send_command_loop (statuses : Nat → Nat) : Nat → Option Nat
  | 0 => none
  | fuel + 1 =>
    if statuses 0 < 0x10 then some (statuses 0)
    else send_command_loop (fun k => statuses (k + 1)) fuel

/-- Outcome of `TMF882x._send_command` once its polling loop has finished. -/
inductive CommandOutcome where
  | ok
  | error (status : Nat)
deriving DecidableEq

/-- `TMF882x._send_command` after writing the opcode: poll until a status
below 0x10 is read, then raise (`error`) when that status exceeds 0x01.
`none` means the unbounded loop is still polling after `fuel` reads. -/
def send_command (statuses : Nat → Nat) (fuel : Nat) : Option CommandOutcome :=
  (send_command_loop statuses fuel).map (fun status =>
    if 0x01 < status then CommandOutcome.error status else CommandOutcome.ok)

/-- The polling loop of `_send_command` never finishes, for the given
status-read sequence: after any number of reads it is still polling. -/
def polls_forever (statuses : Nat → Nat) : Prop :=
  ∀ fuel, send_command statuses fuel = none

/-- Outcome of the body bracketed by `TMF882x._configuration_mode`. -/
inductive BodyOutcome where
  | ok
  | raises
deriving DecidableEq

/-- The header check of `_configuration_mode`: the transaction proceeds
unless `data[0] != 0x16 or data[2] != 0xBC or data[3] != 0x00` (the header
read back is always 4 bytes long). -/
def config_header_ok (data : List Nat) : Bool :=
  (data.getD 0 0 == 0x16) && (data.getD 2 0 == 0xBC) && (data.getD 3 0 == 0x00)

/-- The opcodes `_configuration_mode` hands to the command engine, in
order.  `load_ok` tells whether `_send_command(0x16)` returned normally
(its opcode is written before any status is read, so 0x16 always appears).
The generator body is a bare `yield` with no `try`/`finally`: when the
bracketed body raises, the exception is thrown into the generator at the
`yield` and the code after it does not run; the same holds when the header
verification raises before the `yield`. -/
def configuration_mode_commands (load_ok : Bool) (header : List Nat)
    (body : BodyOutcome) : List Nat :=
  if !load_ok then [0x16]
  else if !config_header_ok header then [0x16]
  else
    match body with
    | BodyOutcome.ok => [0x16, 0x15]
    | BodyOutcome.raises => [0x16]

/-- The framed message built by `TMF882x._send_bootloader_command`:
`[command, len(data), *data, checksum]` with
`checksum = (sum(message) & 0xFF) ^ 0xFF`. -/
def bootloader_frame (command : Nat) (data : List Nat) : List Nat :=
  let message := command :: data.length :: data
  message ++ [(message.sum &&& 0xFF) ^^^ 0xFF]

/-- The raw bus write issued for a bootloader command: the frame prefixed
with the command register address 0x08. -/
def bootloader_i2c_write (command : Nat) (data : List Nat) : List Nat :=
  0x08 :: bootloader_frame command data

/-- Fuel-indexed body of `_chunks`: `while i < len(lst): yield lst[i:i+80]`.
Each iteration consumes 80 elements, so `lst.length` rounds of fuel always
suffice. -/
def chunksGo : Nat → List α → List (List α)
  | 0, _ => []
  | fuel + 1, lst =>
    if lst.isEmpty then [] else lst.take 80 :: chunksGo fuel (lst.drop 80)

/-- `_chunks` of __init__.py at its only call site (`chunk_size = 80`). -/
def _chunks (lst : List α) : List (List α) :=
  chunksGo lst.length lst

end InitPy

namespace MeasurementPy

/-- `TMF882xSpadResult` of src/src/tmf882x/measurement.py. -/
structure TMF882xSpadResult where
  confidence : Nat
  distance : Nat
  secondary_confidence : Nat
  secondary_distance : Nat
  histogram : Option (List Nat) := none
deriving DecidableEq, Inhabited

/-- `TMF882xMeasurement` of measurement.py. -/
structure TMF882xMeasurement where
  result_number : Nat
  temperature : Int
  n_valid_results : Nat
  ambient_light : Nat
  photon_count : Nat
  reference_count : Nat
  system_tick : Nat
  results : List TMF882xSpadResult
  spad_map : Nat
deriving DecidableEq, Inhabited

/-- `TMF882xMeasurement.from_bytes` of measurement.py: 18 records, each
carrying the primary pair and the secondary pair 18 records further on. -/
def from_bytes (data : List Nat) (spad_map : Nat) : Option TMF882xMeasurement :=
  match data.get? 4 with
  | none => none
  | some result_number =>
    match data.get? 6 with
    | none => none
    | some n_valid_results =>
      match traverseRange (fun i =>
          match data.get? (24 + 3 * i), data.get? (24 + 3 * (i + 18)) with
          | some c, some sc =>
            some
              { confidence := c
                distance := fromLE (pySlice data (25 + 3 * i) (27 + 3 * i))
                secondary_confidence := sc
                secondary_distance :=
                  fromLE (pySlice data (25 + 3 * (i + 18)) (27 + 3 * (i + 18)))
                histogram := none }
          | _, _ => none) 18 with
      | none => none
      | some results =>
        some
          { result_number := result_number
            temperature := fromLEsigned (pySlice data 5 6)
            n_valid_results := n_valid_results
            ambient_light := fromLE (pySlice data 8 12)
            photon_count := fromLE (pySlice data 12 16)
            reference_count := fromLE (pySlice data 16 20)
            system_tick := fromLE (pySlice data 20 24)
            results := results
            spad_map := spad_map }

/-- `TMF882xMeasurement.grid` of measurement.py; the dimension table is
abstracted as `dims` exactly as for the other revision.  Each cell reads
`applicable_results[column + x * row]`; the nested comprehension runs `row`
over `range(y)` outside and `column` over `range(x)` inside. -/
def grid (m : TMF882xMeasurement)
    (dims : Nat → Option (Nat × Nat)) : Option (List (List TMF882xSpadResult)) :=
  match dims m.spad_map with
  | none => none
  | some (x, y) =>
    let ar := applicable_results m.results 0 x y
    traverseRange (fun row =>
      traverseRange (fun column => ar.get? (column + x * row)) x) y

/-- `TMF882xMeasurement.primary_grid` of measurement.py: the bare
`distance` field of every zone of `grid`. -/
def primary_grid (m : TMF882xMeasurement)
    (dims : Nat → Option (Nat × Nat)) : Option (List (List Nat)) :=
  (grid m dims).map (fun g => g.map (fun row => row.map (fun c => c.distance)))

/-- `TMF882xMeasurement.secondary_grid` of measurement.py. -/
def secondary_grid (m : TMF882xMeasurement)
    (dims : Nat → Option (Nat × Nat)) : Option (List (List Nat)) :=
  (grid m dims).map (fun g => g.map (fun row => row.map (fun c => c.secondary_distance)))

end MeasurementPy

/-! ## Concrete sample data (used by witnesses and counterexamples) -/

/-- A dimension table sending every map identifier to 3 columns × 2 rows. -/
def gridDims32 : Nat → Option (Nat × Nat) := fun _ => some (3, 2)

/-- A dimension table sending every map identifier to 3 columns × 3 rows. -/
def gridDims33 : Nat → Option (Nat × Nat) := fun _ => some (3, 3)

/-- A dimension table sending every map identifier to 4 columns × 4 rows. -/
def gridDims44 : Nat → Option (Nat × Nat) := fun _ => some (4, 4)

/-- A dimension table with no entry at all (every identifier is absent). -/
def gridDimsNone : Nat → Option (Nat × Nat) := fun _ => none

/-- An __init__.py measurement whose first six zones have distances 1..6. -/
def mInitSix : InitPy.TMF882xMeasurement :=
  { result_number := 0, temperature := 0, n_valid_results := 6, ambient_light := 0,
    photon_count := 0, reference_count := 0, system_tick := 0,
    results := [⟨10, 1⟩, ⟨10, 2⟩, ⟨10, 3⟩, ⟨10, 4⟩, ⟨10, 5⟩, ⟨10, 6⟩],
    spad_map := 1, raw := [] }

/-- A measurement.py measurement whose first six zones have distances 1..6. -/
def mAltSix : MeasurementPy.TMF882xMeasurement :=
  { result_number := 0, temperature := 0, n_valid_results := 6, ambient_light := 0,
    photon_count := 0, reference_count := 0, system_tick := 0,
    results := [⟨10, 1, 0, 0, none⟩, ⟨10, 2, 0, 0, none⟩, ⟨10, 3, 0, 0, none⟩,
                ⟨10, 4, 0, 0, none⟩, ⟨10, 5, 0, 0, none⟩, ⟨10, 6, 0, 0, none⟩],
    spad_map := 1 }

/-- An __init__.py measurement with 36 all-zero zones (no detections). -/
def mInitZeros : InitPy.TMF882xMeasurement :=
  { result_number := 0, temperature := 0, n_valid_results := 0, ambient_light := 0,
    photon_count := 0, reference_count := 0, system_tick := 0,
    results := List.replicate 36 ⟨0, 0⟩, spad_map := 1, raw := [] }

/-- A measurement.py measurement with 18 all-zero zones (no detections). -/
def mAltZeros : MeasurementPy.TMF882xMeasurement :=
  { result_number := 0, temperature := 0, n_valid_results := 0, ambient_light := 0,
    photon_count := 0, reference_count := 0, system_tick := 0,
    results := List.replicate 18 ⟨0, 0, 0, 0, none⟩, spad_map := 1 }

/-! ## Helper lemmas -/

theorem traverseIdx_isSome_iff (f : Nat → Option α) :
    ∀ (n i : Nat), (traverseIdx f i n).isSome ↔ ∀ k, k < n → (f (i + k)).isSome := by
  intro n
  induction n with
  | zero => intro i; simp [traverseIdx]
  | succ n ih =>
    intro i
    simp only [traverseIdx]
    cases hf : f i with
    | none =>
      simp only [Option.isSome_none]
      constructor
      · intro h; exact absurd h (by simp)
      · intro h
        have h0 := h 0 (Nat.succ_pos n)
        rw [Nat.add_zero] at h0
        rw [hf] at h0
        simp at h0
    | some x =>
      cases ht : traverseIdx f (i + 1) n with
      | none =>
        have hn : ¬ (traverseIdx f (i + 1) n).isSome := by rw [ht]; simp
        rw [ih (i + 1)] at hn
        simp only [Option.isSome_none]
        constructor
        · intro h; exact absurd h (by simp)
        · intro h
          exfalso
          apply hn
          intro k hk
          have := h (k + 1) (Nat.succ_lt_succ hk)
          rwa [show i + (k + 1) = i + 1 + k by omega] at this
      | some xs =>
        have hs : (traverseIdx f (i + 1) n).isSome := by rw [ht]; simp
        rw [ih (i + 1)] at hs
        simp only [Option.isSome_some, true_iff]
        intro k hk
        cases k with
        | zero => rw [Nat.add_zero, hf]; simp
        | succ k =>
          have := hs k (Nat.lt_of_succ_lt_succ hk)
          rwa [show i + 1 + k = i + (k + 1) by omega] at this

theorem traverseIdx_eq_some (f : Nat → Option α) :
    ∀ (n i : Nat) (l : List α), traverseIdx f i n = some l →
      l.length = n ∧ ∀ k, k < n → l.get? k = f (i + k) := by
  intro n
  induction n with
  | zero =>
    intro i l h
    simp [traverseIdx] at h
    subst h
    exact ⟨rfl, by intro k hk; omega⟩
  | succ n ih =>
    intro i l h
    simp only [traverseIdx] at h
    cases hf : f i with
    | none => rw [hf] at h; simp at h
    | some x =>
      rw [hf] at h
      cases ht : traverseIdx f (i + 1) n with
      | none => rw [ht] at h; simp at h
      | some xs =>
        rw [ht] at h
        simp only [Option.some_inj] at h
        subst h
        obtain ⟨hlen, hget⟩ := ih (i + 1) xs ht
        refine ⟨by simp [hlen], ?_⟩
        intro k hk
        cases k with
        | zero => simpa using hf.symm
        | succ k =>
          simp only [List.get?_cons_succ]
          rw [hget k (Nat.lt_of_succ_lt_succ hk)]
          congr 1
          omega

theorem chunksGo_nil_any : ∀ fuel, InitPy.chunksGo fuel ([] : List α) = [] := by
  intro fuel
  cases fuel <;> simp [InitPy.chunksGo]

theorem chunksGo_spec :
    ∀ (fuel : Nat) (lst : List α), lst.length ≤ fuel →
      (InitPy.chunksGo fuel lst).flatten = lst ∧
      (∀ c ∈ InitPy.chunksGo fuel lst, c.length ≤ 80) ∧
      (∀ i c, (InitPy.chunksGo fuel lst).get? i = some c →
         i + 1 < (InitPy.chunksGo fuel lst).length → c.length = 80) := by
  intro fuel
  induction fuel with
  | zero =>
    intro lst h
    have hnil : lst = [] := List.eq_nil_of_length_eq_zero (Nat.le_zero.mp h)
    subst hnil
    simp [InitPy.chunksGo]
  | succ fuel ih =>
    intro lst h
    by_cases hE : lst.isEmpty
    · have hnil : lst = [] := List.isEmpty_iff.mp hE
      subst hnil
      simp [InitPy.chunksGo]
    · have hne : lst ≠ [] := by simpa [List.isEmpty_iff] using hE
      have hlen : 0 < lst.length := List.length_pos.mpr hne
      have hEf : lst.isEmpty = false := by simpa using hE
      have hstep : InitPy.chunksGo (fuel + 1) lst
          = lst.take 80 :: InitPy.chunksGo fuel (lst.drop 80) := by
        simp [InitPy.chunksGo, hEf]
      have hdroplen : (lst.drop 80).length ≤ fuel := by
        simp only [List.length_drop]
        omega
      obtain ⟨ihflat, ihbound, ihfull⟩ := ih (lst.drop 80) hdroplen
      refine ⟨?_, ?_, ?_⟩
      · rw [hstep]
        simp only [List.flatten_cons, ihflat, List.take_append_drop]
      · intro c hc
        rw [hstep] at hc
        rcases List.mem_cons.mp hc with hc | hc
        · subst hc
          simp only [List.length_take]
          omega
        · exact ihbound c hc
      · intro i c hget hlt
        rw [hstep] at hget hlt
        cases i with
        | zero =>
          simp only [List.get?_cons_zero, Option.some_inj] at hget
          subst hget
          simp only [List.length_cons] at hlt
          have hrest : InitPy.chunksGo fuel (lst.drop 80) ≠ [] := by
            intro hcon
            rw [hcon] at hlt
            simp at hlt
          have hdropne : lst.drop 80 ≠ [] := by
            intro hcon
            rw [hcon, chunksGo_nil_any] at hrest
            exact hrest rfl
          have h80 : 80 < lst.length := by
            by_contra hcon
            exact hdropne (List.drop_eq_nil_of_le (by omega))
          simp only [List.length_take]
          omega
        | succ i =>
          simp only [List.get?_cons_succ] at hget
          simp only [List.length_cons] at hlt
          exact ihfull i c hget (by omega)

theorem send_command_loop_none_iff :
    ∀ (fuel : Nat) (statuses : Nat → Nat),
      InitPy.send_command_loop statuses fuel = none ↔
        ∀ k, k < fuel → 0x10 ≤ statuses k := by
  intro fuel
  induction fuel with
  | zero =>
    intro s
    simp [InitPy.send_command_loop]
  | succ fuel ih =>
    intro s
    simp only [InitPy.send_command_loop]
    by_cases h : s 0 < 0x10
    · rw [if_pos h]
      constructor
      · intro hc; simp at hc
      · intro hall
        have := hall 0 (Nat.succ_pos fuel)
        omega
    · rw [if_neg h]
      rw [ih]
      constructor
      · intro hall k hk
        cases k with
        | zero => omega
        | succ k => exact hall k (by omega)
      · intro hall k hk
        exact hall (k + 1) (by omega)

/-! ## Claim theorems -/

/-- C1 (corrected): the polling loop of `TMF882x._send_command` has no
retry ceiling and no `Timeout`.  After writing the opcode the code polls
with a constant delay while status ≥ 0x10; after `fuel` status reads the
operation is still polling if and only if every status read so far was
≥ 0x10 — so a device that never reports a status below 0x10 keeps the
loop running forever instead of failing with a timeout. -/
theorem C1_send_command_poll_characterization :
    ∀ (statuses : Nat → Nat) (fuel : Nat),
      InitPy.send_command statuses fuel = none ↔
        ∀ k, k < fuel → 0x10 ≤ statuses k := by
  intro s fuel
  rw [InitPy.send_command, Option.map_eq_none']
  exact send_command_loop_none_iff fuel s

/-- C1 counterexample: for the device behaviour that always reports status
0xFF, `_send_command` is still polling after every number of reads — it
never terminates, with `Timeout` or otherwise, refuting the claimed
bounded retry ceiling. -/
theorem C1_counterexample : InitPy.polls_forever (fun _ => 0xFF) := by
  intro fuel
  rw [InitPy.send_command, Option.map_eq_none']
  exact (send_command_loop_none_iff fuel (fun _ => 0xFF)).mpr (fun k _ => by decide)

/-- C2 (corrected): the commit opcode 0x15 is handed to the command engine
iff the load command returned normally, the header verification passed,
and the bracketed body completed normally.  In particular it is NOT sent
when the body raises: the generator body of `_configuration_mode` is a
bare `yield` with no `try`/`finally`. -/
theorem C2_commit_iff :
    ∀ (load_ok : Bool) (header : List Nat) (body : InitPy.BodyOutcome),
      0x15 ∈ InitPy.configuration_mode_commands load_ok header body ↔
        load_ok = true ∧ InitPy.config_header_ok header = true ∧
          body = InitPy.BodyOutcome.ok := by
  intro lo h b
  cases lo <;> cases b <;> by_cases hh : InitPy.config_header_ok h <;>
    simp_all [InitPy.configuration_mode_commands]

/-- C2 counterexample: with a successful load and a well-formed header,
a body that raises leaves the issued command list at `[0x16]` — the commit
command 0x15 is never sent on that exit path. -/
theorem C2_counterexample :
    InitPy.configuration_mode_commands true [0x16, 0x00, 0xBC, 0x00]
        InitPy.BodyOutcome.raises = [0x16] ∧
      (0x15 : Nat) ∉ [(0x16 : Nat)] := by
  decide

/-- C5 (confirmed): `TMF882xMode.from_register` first masks bits 4 and 5
(`value & 0xCF`) and then matches: the result only depends on the masked
value, the three defined codes 0x00/0x02/0x41 map to Off/Standby/Enabled
(also when bits 4 or 5 are additionally set in the raw value), and every
other masked value is an error. -/
theorem C5_mode_register_masking :
    ∀ value : Nat,
      InitPy.from_register value = InitPy.from_register (value &&& 0xCF) ∧
      (InitPy.from_register value = some InitPy.TMF882xMode.off ↔
        value &&& 0xCF = 0x00) ∧
      (InitPy.from_register value = some InitPy.TMF882xMode.standby ↔
        value &&& 0xCF = 0x02) ∧
      (InitPy.from_register value = some InitPy.TMF882xMode.enabled ↔
        value &&& 0xCF = 0x41) ∧
      (InitPy.from_register value = none ↔
        ¬(value &&& 0xCF = 0x00 ∨ value &&& 0xCF = 0x02 ∨ value &&& 0xCF = 0x41)) := by
  intro value
  have hmask : (value &&& 0xCF) &&& 0xCF = value &&& 0xCF := by
    rw [Nat.and_assoc, Nat.and_self]
  unfold InitPy.from_register
  rw [hmask]
  split_ifs with h1 h2 h3 <;> simp_all

/-- C7 (confirmed): the bootloader frame is
`[opcode, payload length, payload..., checksum]` with checksum
`(sum of opcode, length and payload, modulo 256) XOR 0xFF`; for opcode
0x41 with payload `[0x01, 0x02]` the checksum is
`((0x41 + 0x02 + 0x01 + 0x02) & 0xFF) ^ 0xFF`. -/
theorem C7_bootloader_checksum :
    ∀ (command : Nat) (data : List Nat),
      InitPy.bootloader_frame command data
        = command :: data.length ::
            (data ++ [((command + data.length + data.sum) % 256) ^^^ 0xFF]) ∧
      InitPy.bootloader_frame 0x41 [0x01, 0x02]
        = [0x41, 0x02, 0x01, 0x02, ((0x41 + 0x02 + 0x01 + 0x02) &&& 0xFF) ^^^ 0xFF] := by
  intro command data
  constructor
  · have hand : ∀ n : Nat, n &&& 0xFF = n % 256 := by
      intro n
      have h := Nat.and_pow_two_sub_one_eq_mod n 8
      norm_num at h
      exact h
    have hsum : (command :: data.length :: data).sum = command + data.length + data.sum := by
      simp only [List.sum_cons]
      omega
    simp only [InitPy.bootloader_frame, hsum, hand, List.cons_append]
  · decide

/-- C8 (confirmed): `_chunks` partitions the firmware image into chunks of
at most 80 bytes, in original order, whose concatenation reproduces the
original byte sequence exactly; every chunk except possibly the last has
exactly 80 bytes. -/
theorem C8_chunks_partition :
    ∀ lst : List Nat,
      (InitPy._chunks lst).flatten = lst ∧
      (∀ c ∈ InitPy._chunks lst, c.length ≤ 80) ∧
      (∀ i c, (InitPy._chunks lst).get? i = some c →
         i + 1 < (InitPy._chunks lst).length → c.length = 80) := by
  intro lst
  exact chunksGo_spec lst.length lst (Nat.le_refl _)

/-- C8 witness: a concrete 100-byte image is split into a full 80-byte
chunk followed by the 20-byte remainder, and the chunks concatenate back
to the image. -/
theorem C8_witness :
    (InitPy._chunks (List.range 100)).flatten = List.range 100 ∧
    ((List.range 100).take 80).length ≤ 80 ∧
    ((List.range 100).take 80).length = 80 :=
  ⟨(C8_chunks_partition (List.range 100)).1,
   (C8_chunks_partition (List.range 100)).2.1 ((List.range 100).take 80) (by decide),
   (C8_chunks_partition (List.range 100)).2.2 0 ((List.range 100).take 80)
     (by decide) (by decide)⟩

theorem grid_index_lt {x y row column : Nat} (hr : row < x) (hc : column < y) :
    row + x * column < x * y := by
  calc row + x * column < x + x * column := by omega
    _ = x * (column + 1) := by ring
    _ ≤ x * y := Nat.mul_le_mul_left x hc

theorem traverseGrid_shape {β : Type} (f : Nat → Nat → Option β) (x y : Nat)
    (h : ∀ o r, o < y → r < x → (f o r).isSome) :
    ∃ g, traverseRange (fun o => traverseRange (f o) x) y = some g ∧
      g.length = y ∧ (∀ row ∈ g, row.length = x) ∧
      (∀ o, o < y → ∃ row, g.get? o = some row ∧
        ∀ r, r < x → row.get? r = f o r) := by
  have houter : (traverseRange (fun o => traverseRange (f o) x) y).isSome := by
    rw [traverseRange, traverseIdx_isSome_iff]
    intro k hk
    rw [Nat.zero_add, traverseRange, traverseIdx_isSome_iff]
    intro r hr
    rw [Nat.zero_add]
    exact h k r hk hr
  obtain ⟨g, hg⟩ := Option.isSome_iff_exists.mp houter
  obtain ⟨hglen, hgget⟩ := traverseIdx_eq_some _ y 0 g hg
  have hrow : ∀ o, o < y → ∃ row, g.get? o = some row ∧
      ∀ r, r < x → row.get? r = f o r := by
    intro o ho
    have h1 : g.get? o = traverseRange (f o) x := by
      rw [hgget o ho, Nat.zero_add]
    have h2 : (traverseRange (f o) x).isSome := by
      rw [traverseRange, traverseIdx_isSome_iff]
      intro r hr
      rw [Nat.zero_add]
      exact h o r ho hr
    obtain ⟨row, hrw⟩ := Option.isSome_iff_exists.mp h2
    obtain ⟨_, hrget⟩ := traverseIdx_eq_some (f o) x 0 row hrw
    refine ⟨row, by rw [h1, hrw], ?_⟩
    intro r hr
    rw [hrget r hr, Nat.zero_add]
  refine ⟨g, hg, hglen, ?_, hrow⟩
  intro row hmem
  obtain ⟨o, ho⟩ := List.mem_iff_get?.mp hmem
  have holt : o < y := by
    obtain ⟨hlt, _⟩ := List.get?_eq_some.mp ho
    omega
  obtain ⟨row2, hrow2, _⟩ := hrow o holt
  rw [ho] at hrow2
  have h1 : g.get? o = traverseRange (f o) x := by
    rw [hgget o holt, Nat.zero_add]
  rw [ho] at h1
  obtain ⟨hrlen, _⟩ := traverseIdx_eq_some (f o) x 0 row h1.symm
  exact hrlen

/-- C6 (confirmed): for the 4×4 spatial map the selected zone list has
exactly 16 entries, entry `j` of the selection being zone
`offset + j` for `j < 8` and zone `offset + j + 1` for `8 ≤ j < 16` — so
exactly the zones at window-relative indices 8 and 17 of the 18-entry
window are excluded and the remaining 16 are included in order; for every
other map the selection is the contiguous window of `x * y` zones. -/
theorem C6_four_by_four_exclusion :
    ∀ (α : Type) (results : List α) (offset : Nat),
      (offset + 17 < results.length →
        (applicable_results results offset 4 4).length = 16 ∧
        (∀ j, j < 16 →
          (applicable_results results offset 4 4).get? j
            = results.get? (offset + (if j < 8 then j else j + 1))) ∧
        (∀ j, j < 16 →
          (if j < 8 then j else j + 1) ≠ 8 ∧ (if j < 8 then j else j + 1) ≠ 17)) ∧
      (∀ x y, ¬(x = 4 ∧ y = 4) →
        applicable_results results offset x y = (results.drop offset).take (x * y)) := by
  intro α results offset
  constructor
  · intro h
    have happ : applicable_results results offset 4 4
        = ((results.drop offset).take 8) ++ ((results.drop (offset + 9)).take 8) := by
      simp [applicable_results]
    have hA : ((results.drop offset).take 8).length = 8 := by
      simp only [List.length_take, List.length_drop]
      omega
    have hB : ((results.drop (offset + 9)).take 8).length = 8 := by
      simp only [List.length_take, List.length_drop]
      omega
    refine ⟨?_, ?_, ?_⟩
    · rw [happ, List.length_append, hA, hB]
    · intro j hj
      rw [happ]
      by_cases hj8 : j < 8
      · rw [List.get?_append (by rw [hA]; exact hj8)]
        rw [List.get?_take hj8, List.get?_drop]
        rw [if_pos hj8]
      · rw [List.get?_append_right (by rw [hA]; omega)]
        rw [hA]
        rw [List.get?_take (by omega : j - 8 < 8), List.get?_drop]
        rw [if_neg hj8]
        congr 1
        omega
    · intro j hj
      constructor <;> split_ifs <;> omega
  · intro x y hxy
    simp [applicable_results, hxy]

/-- C6 witness: with a 20-zone list and offset 0, the 4×4 selection has 16
entries and its entry 10 is zone 11 of the window (index 10 maps past the
excluded zone 8). -/
theorem C6_witness :
    (applicable_results (List.range 20) 0 4 4).length = 16 ∧
    (applicable_results (List.range 20) 0 4 4).get? 10
      = (List.range 20).get? (0 + (if 10 < 8 then 10 else 10 + 1)) :=
  ⟨((C6_four_by_four_exclusion Nat (List.range 20) 0).1 (by decide)).1,
   ((C6_four_by_four_exclusion Nat (List.range 20) 0).1 (by decide)).2.1 10 (by decide)⟩

/-- C10 (confirmed): whenever the spatial-map identifier is present in the
dimension table with value `(x, y)` and the measurement carries enough
zones, `grid` (of either revision) returns a grid of exactly `y` rows of
exactly `x` entries each; whenever the identifier is absent, `grid` fails
(the code raises `NotImplementedError`) instead of using a default shape.
Instantiated at a 4×4 table the selected 16 zones exactly fill the 4×4
grid (see the witness). -/
theorem C10_grid_shape :
    ∀ (dims : Nat → Option (Nat × Nat)) (x y : Nat)
      (m : InitPy.TMF882xMeasurement) (secondary : Bool)
      (mm : MeasurementPy.TMF882xMeasurement),
      (dims m.spad_map = some (x, y) →
        x * y ≤ (applicable_results m.results (if secondary then 18 else 0) x y).length →
        ∃ g, InitPy.grid m secondary dims = some g ∧
          g.length = y ∧ ∀ row ∈ g, row.length = x) ∧
      (dims m.spad_map = none → InitPy.grid m secondary dims = none) ∧
      (dims mm.spad_map = some (x, y) →
        x * y ≤ (applicable_results mm.results 0 x y).length →
        ∃ g, MeasurementPy.grid mm dims = some g ∧
          g.length = y ∧ ∀ row ∈ g, row.length = x) ∧
      (dims mm.spad_map = none → MeasurementPy.grid mm dims = none) := by
  intro dims x y m secondary mm
  refine ⟨?_, ?_, ?_, ?_⟩
  · intro hdim hbound
    have hcell : ∀ o r, o < y → r < x →
        (((applicable_results m.results (if secondary then 18 else 0) x y).get?
            (r + x * o)).map (fun res =>
              if 0 < res.distance then some res.distance else none)).isSome := by
      intro o r ho hr
      have hlt : r + x * o
          < (applicable_results m.results (if secondary then 18 else 0) x y).length :=
        Nat.lt_of_lt_of_le (grid_index_lt hr ho) hbound
      rw [List.get?_eq_get hlt]
      simp
    obtain ⟨g, hg, hlen, hrows, _⟩ := traverseGrid_shape _ x y hcell
    refine ⟨g, ?_, hlen, hrows⟩
    simpa only [InitPy.grid, hdim] using hg
  · intro hdim
    simp [InitPy.grid, hdim]
  · intro hdim hbound
    have hcell : ∀ o r, o < y → r < x →
        ((applicable_results mm.results 0 x y).get? (r + x * o)).isSome := by
      intro o r ho hr
      have hlt : r + x * o < (applicable_results mm.results 0 x y).length :=
        Nat.lt_of_lt_of_le (grid_index_lt hr ho) hbound
      rw [List.get?_eq_get hlt]
      simp
    obtain ⟨g, hg, hlen, hrows, _⟩ := traverseGrid_shape _ x y hcell
    refine ⟨g, ?_, hlen, hrows⟩
    simpa only [MeasurementPy.grid, hdim] using hg
  · intro hdim
    simp [MeasurementPy.grid, hdim]

/-- C10 witness: with a table mapping every identifier to (4, 4), a 36-zone
__init__.py measurement and an 18-zone measurement.py measurement both
yield a grid of exactly 4 rows of 4 entries — the 16 selected zones fill
the 4×4 grid exactly. -/
theorem C10_witness :
    (∃ g, InitPy.grid mInitZeros false gridDims44 = some g ∧
      g.length = 4 ∧ ∀ row ∈ g, row.length = 4) ∧
    (∃ g, MeasurementPy.grid mAltZeros gridDims44 = some g ∧
      g.length = 4 ∧ ∀ row ∈ g, row.length = 4) :=
  ⟨(C10_grid_shape gridDims44 4 4 mInitZeros false mAltZeros).1 rfl (by decide),
   (C10_grid_shape gridDims44 4 4 mInitZeros false mAltZeros).2.2.1 rfl (by decide)⟩

/-- C3 (corrected): the two revisions map the filtered zone list into the
2-D grid in the SAME order, not different ones.  Both place flat index `k`
at outer (row) index `k / x` and inner (column) index `k % x` of the
nested-list grid — the comprehensions `[[... row + x * column ...] for
column in range(y)]` and `[[... column + x * row ...] for row in range(x)]`
are alpha-equivalent; only the loop-variable names are swapped. -/
theorem C3_row_major_both :
    ∀ (dims : Nat → Option (Nat × Nat)) (x y k : Nat)
      (mm : MeasurementPy.TMF882xMeasurement)
      (m : InitPy.TMF882xMeasurement) (secondary : Bool),
      dims mm.spad_map = some (x, y) →
      dims m.spad_map = some (x, y) →
      k < x * y →
      x * y ≤ (applicable_results mm.results 0 x y).length →
      x * y ≤ (applicable_results m.results (if secondary then 18 else 0) x y).length →
      ∃ gA rowA gM rowM,
        MeasurementPy.grid mm dims = some gA ∧
        gA.get? (k / x) = some rowA ∧
        rowA.get? (k % x) = (applicable_results mm.results 0 x y).get? k ∧
        InitPy.grid m secondary dims = some gM ∧
        gM.get? (k / x) = some rowM ∧
        rowM.get? (k % x)
          = ((applicable_results m.results (if secondary then 18 else 0) x y).get? k).map
              (fun res => if 0 < res.distance then some res.distance else none) := by
  intro dims x y k mm m secondary hdimA hdimM hk hboundA hboundM
  have hx : 0 < x := by
    rcases Nat.eq_zero_or_pos x with h0 | h0
    · subst h0; simp at hk
    · exact h0
  have hdiv : k / x < y := by
    rw [Nat.div_lt_iff_lt_mul hx, Nat.mul_comm y x]
    exact hk
  have hmod : k % x < x := Nat.mod_lt _ hx
  have hidx : k % x + x * (k / x) = k := Nat.mod_add_div k x
  have hcellA : ∀ o r, o < y → r < x →
      ((applicable_results mm.results 0 x y).get? (r + x * o)).isSome := by
    intro o r ho hr
    have hlt : r + x * o < (applicable_results mm.results 0 x y).length :=
      Nat.lt_of_lt_of_le (grid_index_lt hr ho) hboundA
    rw [List.get?_eq_get hlt]
    simp
  have hcellM : ∀ o r, o < y → r < x →
      (((applicable_results m.results (if secondary then 18 else 0) x y).get?
          (r + x * o)).map (fun res =>
            if 0 < res.distance then some res.distance else none)).isSome := by
    intro o r ho hr
    have hlt : r + x * o
        < (applicable_results m.results (if secondary then 18 else 0) x y).length :=
      Nat.lt_of_lt_of_le (grid_index_lt hr ho) hboundM
    rw [List.get?_eq_get hlt]
    simp
  obtain ⟨gA, hgA, _, _, hrowsA⟩ := traverseGrid_shape _ x y hcellA
  obtain ⟨gM, hgM, _, _, hrowsM⟩ := traverseGrid_shape _ x y hcellM
  obtain ⟨rowA, hrowA, hgetA⟩ := hrowsA (k / x) hdiv
  obtain ⟨rowM, hrowM, hgetM⟩ := hrowsM (k / x) hdiv
  refine ⟨gA, rowA, gM, rowM, ?_, hrowA, ?_, ?_, hrowM, ?_⟩
  · simpa only [MeasurementPy.grid, hdimA] using hgA
  · rw [hgetA (k % x) hmod, hidx]
  · simpa only [InitPy.grid, hdimM] using hgM
  · rw [hgetM (k % x) hmod, hidx]

/-- C3 witness: on a 3-column × 2-row table with zone distances 1..6, flat
index 4 lands at row 1, column 1 in both revisions. -/
theorem C3_witness :
    ∃ gA rowA gM rowM,
      MeasurementPy.grid mAltSix gridDims32 = some gA ∧
      gA.get? (4 / 3) = some rowA ∧
      rowA.get? (4 % 3) = (applicable_results mAltSix.results 0 3 2).get? 4 ∧
      InitPy.grid mInitSix false gridDims32 = some gM ∧
      gM.get? (4 / 3) = some rowM ∧
      rowM.get? (4 % 3)
        = ((applicable_results mInitSix.results (if false then 18 else 0) 3 2).get? 4).map
            (fun res => if 0 < res.distance then some res.distance else none) :=
  C3_row_major_both gridDims32 3 2 4 mAltSix mInitSix false rfl rfl
    (by decide) (by decide) (by decide)

/-- C3 counterexample: on a 3-column × 2-row map with zone distances 1..6,
both revisions produce the same grid `[[1, 2, 3], [4, 5, 6]]` (row-major:
flat index k at row k / 3, column k % 3), and that grid differs from the
column-major arrangement `[[1, 4], [2, 5], [3, 6]]` that the claim ascribes
to the __init__.py variant — so the two variants do not produce different
grids, and neither of them places flat index k at (row k % columns,
column k / columns). -/
theorem C3_counterexample :
    InitPy.grid mInitSix false gridDims32
      = some [[some 1, some 2, some 3], [some 4, some 5, some 6]] ∧
    MeasurementPy.primary_grid mAltSix gridDims32
      = some [[1, 2, 3], [4, 5, 6]] ∧
    some [[some 1, some 2, some 3], [some 4, some 5, some 6]]
      ≠ some [[some 1, some 4], [some 2, some 5], [some 3, some 6]] := by
  decide

/-- C4 (corrected): in the optional-distance grid of the __init__.py
revision a zone whose decoded distance is 0 is always rendered as the
absent value (`None`), never as `some 0`; the claim fails for the other
revision, whose `primary_grid`/`secondary_grid` return the bare distance
numbers, rendering a 0 distance as the literal 0 (see the
counterexample). -/
theorem C4_zero_distance_absent :
    ∀ (m : InitPy.TMF882xMeasurement) (secondary : Bool)
      (dims : Nat → Option (Nat × Nat)) (g : List (List (Option Nat))),
      InitPy.grid m secondary dims = some g →
      ∀ row ∈ g, ∀ cell ∈ row, cell ≠ some 0 := by
  intro m secondary dims g hgrid row hrow cell hcell
  cases hdim : dims m.spad_map with
  | none =>
    rw [InitPy.grid, hdim] at hgrid
    simp at hgrid
  | some xy =>
    obtain ⟨x, y⟩ := xy
    have hg : traverseRange (fun column =>
        traverseRange (fun r =>
          ((applicable_results m.results (if secondary then 18 else 0) x y).get?
            (r + x * column)).map (fun res =>
              if 0 < res.distance then some res.distance else none)) x) y = some g := by
      rw [InitPy.grid, hdim] at hgrid
      exact hgrid
    obtain ⟨hglen, hgget⟩ := traverseIdx_eq_some _ y 0 g hg
    obtain ⟨o, ho⟩ := List.mem_iff_get?.mp hrow
    have holt : o < y := by
      obtain ⟨hlt, _⟩ := List.get?_eq_some.mp ho
      omega
    have hrow2 := hgget o holt
    rw [ho] at hrow2
    obtain ⟨hrlen, hrget⟩ := traverseIdx_eq_some _ x 0 row hrow2.symm
    obtain ⟨r, hr⟩ := List.mem_iff_get?.mp hcell
    have hrlt : r < x := by
      obtain ⟨hlt, _⟩ := List.get?_eq_some.mp hr
      omega
    have hcell2 := hrget r hrlt
    rw [hr] at hcell2
    rw [Nat.zero_add] at hcell2
    obtain ⟨res, _, hres⟩ := Option.map_eq_some'.mp hcell2.symm
    intro hzero
    rw [hzero] at hres
    by_cases hd : 0 < res.distance
    · rw [if_pos hd] at hres
      have : res.distance = 0 := by
        injection hres
      omega
    · rw [if_neg hd] at hres
      exact Option.noConfusion hres

/-- C4 witness: in the concrete 3×2 grid of `mInitSix` the first cell is
`some 1`, and by the theorem it cannot be `some 0`. -/
theorem C4_witness : (some 1 : Option Nat) ≠ some 0 :=
  C4_zero_distance_absent mInitSix false gridDims32
    [[some 1, some 2, some 3], [some 4, some 5, some 6]] (by decide)
    [some 1, some 2, some 3] (by decide) (some 1) (by decide)

/-- C4 counterexample: for an all-zero measurement on a 3×3 table the
measurement.py `primary_grid` renders every no-detection zone as the
literal number 0, not as an absent value (its cells are bare `Nat`s). -/
theorem C4_counterexample :
    MeasurementPy.primary_grid mAltZeros gridDims33
      = some [[0, 0, 0], [0, 0, 0], [0, 0, 0]] := by
  decide

theorem get?_isSome_iff (l : List α) (n : Nat) :
    (l.get? n).isSome ↔ n < l.length := by
  constructor
  · intro h
    by_contra hc
    rw [List.get?_eq_none.mpr (by omega)] at h
    simp at h
  · intro h
    rw [List.get?_eq_get h]
    simp

/-- C9 (corrected): `from_bytes` does not fail on every buffer shorter
than 132 bytes.  The largest byte offset either revision subscripts is
129, so decoding succeeds exactly on buffers of length ≥ 130 (for the
__init__.py revision additionally requiring every element to be a byte,
because of `bytes(data)`); buffers of length 130 and 131 — strictly
shorter than the nominal 132 — decode successfully. -/
theorem C9_decode_length_characterization :
    ∀ (data : List Nat) (spad_map : Nat),
      ((MeasurementPy.from_bytes data spad_map).isSome ↔ 130 ≤ data.length) ∧
      ((InitPy.from_bytes data spad_map).isSome ↔
        (130 ≤ data.length ∧ data.all (fun b => b < 256) = true)) := by
  intro data spad_map
  constructor
  · rw [MeasurementPy.from_bytes]
    rcases h4 : data.get? 4 with _ | rn
    · have hl := List.get?_eq_none.mp h4
      simp only [h4]
      simp
      omega
    · simp only [h4]
      rcases h6 : data.get? 6 with _ | nv
      · have hl := List.get?_eq_none.mp h6
        simp only [h6]
        simp
        omega
      · simp only [h6]
        set f : Nat → Option MeasurementPy.TMF882xSpadResult := (fun i =>
          match data.get? (24 + 3 * i), data.get? (24 + 3 * (i + 18)) with
          | some c, some sc =>
            some
              { confidence := c
                distance := fromLE (pySlice data (25 + 3 * i) (27 + 3 * i))
                secondary_confidence := sc
                secondary_distance :=
                  fromLE (pySlice data (25 + 3 * (i + 18)) (27 + 3 * (i + 18)))
                histogram := none }
          | _, _ => none) with hf
        have hfs : ∀ k, (f k).isSome ↔
            (24 + 3 * k < data.length ∧ 24 + 3 * (k + 18) < data.length) := by
          intro k
          rw [← get?_isSome_iff data (24 + 3 * k), ← get?_isSome_iff data (24 + 3 * (k + 18))]
          simp only [hf]
          rcases hA : data.get? (24 + 3 * k) with _ | c <;>
            rcases hB : data.get? (24 + 3 * (k + 18)) with _ | sc <;> simp
        rcases ht : traverseRange f 18 with _ | results
        · have hns : ¬ (traverseRange f 18).isSome := by rw [ht]; simp
          rw [traverseRange, traverseIdx_isSome_iff] at hns
          push_neg at hns
          obtain ⟨k, hk, hnot⟩ := hns
          rw [Nat.zero_add] at hnot
          have hkc : ¬ (24 + 3 * k < data.length ∧ 24 + 3 * (k + 18) < data.length) := by
            intro hc
            exact hnot ((hfs k).mpr hc)
          simp only [ht]
          simp
          omega
        · have hS : (traverseRange f 18).isSome := by rw [ht]; simp
          rw [traverseRange, traverseIdx_isSome_iff] at hS
          have h17 := hS 17 (by omega)
          rw [Nat.zero_add] at h17
          have hlen := (hfs 17).mp h17
          simp only [ht]
          simp
          omega
  · rw [InitPy.from_bytes]
    rcases h4 : data.get? 4 with _ | rn
    · have hl := List.get?_eq_none.mp h4
      simp only [h4]
      simp
      omega
    · simp only [h4]
      rcases h6 : data.get? 6 with _ | nv
      · have hl := List.get?_eq_none.mp h6
        simp only [h6]
        simp
        omega
      · simp only [h6]
        set f : Nat → Option InitPy.TMF882xResult := (fun i =>
          (data.get? (24 + 3 * i)).map (fun c =>
            { confidence := c
              distance := fromLE (pySlice data (25 + 3 * i) (27 + 3 * i)) })) with hf
        have hfs : ∀ k, (f k).isSome ↔ 24 + 3 * k < data.length := by
          intro k
          rw [← get?_isSome_iff data (24 + 3 * k)]
          simp only [hf]
          rcases hA : data.get? (24 + 3 * k) with _ | c <;> simp
        rcases ht : traverseRange f 36 with _ | results
        · have hns : ¬ (traverseRange f 36).isSome := by rw [ht]; simp
          rw [traverseRange, traverseIdx_isSome_iff] at hns
          push_neg at hns
          obtain ⟨k, hk, hnot⟩ := hns
          rw [Nat.zero_add] at hnot
          have hkc : ¬ 24 + 3 * k < data.length := by
            intro hc
            exact hnot ((hfs k).mpr hc)
          simp only [ht]
          simp
          omega
        · have hS : (traverseRange f 36).isSome := by rw [ht]; simp
          rw [traverseRange, traverseIdx_isSome_iff] at hS
          have h35 := hS 35 (by omega)
          rw [Nat.zero_add] at h35
          have hlen := (hfs 35).mp h35
          simp only [ht]
          cases hall : data.all (fun b => b < 256) <;> simp [hall] <;> omega

/-- C9 counterexample: an all-zero buffer of 131 bytes — strictly shorter
than the expected fixed length of 132 — decodes successfully under both
revisions of `from_bytes` instead of failing. -/
theorem C9_counterexample :
    (MeasurementPy.from_bytes (List.replicate 131 0) 1).isSome = true ∧
    (InitPy.from_bytes (List.replicate 131 0) 1).isSome = true := by
  decide
